import Mathlib

/-!
Shallow embedding of `statements.go` from iv-menshenin/sql-ast: the statement
node types (Alter, Create, Drop, Insert, Update, Select, With), their render,
dependedOn and solved operations, and the NamedObject/Dependencies dependency
model. Go panics are modelled explicitly via `PanicOr`; the Go map used by
InsertStmt is modelled as its entry list together with an explicit iteration
order, since Go map iteration order is unspecified.
-/

/-- Modelled from the spec: the closed enumeration of DDL object kinds
(`SqlTarget`), whose declaration is not under src; the source uses the
constants `TargetSchema` and `TargetConstraint` and renders the target as its
noun text. -/
inductive SqlTarget where
  | schema
  | table
  | column
  | constraint
  | index
  deriving DecidableEq

/-- Modelled from the spec: the noun text of a target kind, used when a
statement is rendered. -/
def SqlTarget.toString : SqlTarget → String
  | .schema => "schema"
  | .table => "table"
  | .column => "column"
  | .constraint => "constraint"
  | .index => "index"

/-- Modelled from the spec: identifiers are polymorphic over a plain name and
a qualified selector (container, name); the source's `SqlIdent` interface and
`Selector` type are not under src. -/
inductive SqlIdent where
  | name (s : String)
  | selector (Container : String) (Name : String)
  deriving DecidableEq

/-- Modelled from the spec: `GetName()` returns the identifier's own name, the
rightmost component for a selector. -/
def SqlIdent.GetName : SqlIdent → String
  | .name s => s
  | .selector _ nm => nm

/-- NamedObject: the three-level (schema, object, field) dependency key of the
source, with empty string meaning unspecified at that level. -/
structure NamedObject where
  Schema : String
  Object : String
  Field : String
  deriving DecidableEq

/-- Dependencies: an ordered sequence of NamedObject keys. -/
abbrev Dependencies := List NamedObject

/-- Modelled from the spec: `concatDependencies` (not under src) concatenates
two edge sequences preserving order. -/
def concatDependencies (a b : Dependencies) : Dependencies := a ++ b

/-- Modelled from the spec: `dependedOn2 s o` (not under src) builds the
single edge sequence holding the key (s, o, empty field). -/
def dependedOn2 (s o : String) : Dependencies := [⟨s, o, ""⟩]

/-- Modelled from the spec: `dependedOn3 s o f` (not under src) builds the
single edge sequence holding the key (s, o, f). -/
def dependedOn3 (s o f : String) : Dependencies := [⟨s, o, f⟩]

/-- Modelled from the spec: a column descriptor of a table-body describer,
carrying the column's identifier; the source's field type is not under src. -/
structure FieldDesc where
  Name : SqlIdent
  deriving DecidableEq

/-- Modelled from the spec: the dependency-relevant closed expression model.
The source's `SqlExpr` interface and its implementations are not under src;
per the spec, only the add-column expression (`AddExpr`) and the table-body
describer (`TableBodyDescriber`) participate specially in dependency
derivation, every variant renders to text, and a variant may contribute its
own dependency edges. Each variant therefore carries its rendered text and
its own dependedOn edges opaquely. -/
inductive SqlExpr where
  | addExpr (Name : SqlIdent) (text : String) (deps : Dependencies)
  | tableBodyDescriber (Fields : List FieldDesc) (text : String) (deps : Dependencies)
  | other (text : String) (deps : Dependencies)
  deriving DecidableEq

/-- Rendered text of an expression (its `String()` method). -/
def SqlExpr.toString : SqlExpr → String
  | .addExpr _ text _ => text
  | .tableBodyDescriber _ text _ => text
  | .other text _ => text

/-- Dependency edges contributed by an expression (its `dependedOn()`). -/
def SqlExpr.dependedOn : SqlExpr → Dependencies
  | .addExpr _ _ deps => deps
  | .tableBodyDescriber _ _ deps => deps
  | .other _ deps => deps

/-- TableDesc: a table identifier together with an optional alias. -/
structure TableDesc where
  Table : SqlIdent
  Alias : String
  deriving DecidableEq

/-- Go computations that may panic: `panic msg` models a Go `panic(msg)`
(a process-terminating fault unless recovered), `ok v` a normal return. -/
inductive PanicOr (α : Type) where
  | panic (msg : String)
  | ok (val : α)
  deriving DecidableEq

/-- Embedding of Go's `strings.Split` for a one-character separator: the
accumulator collects the current segment reversed. -/
def goSplitAux (sep : Char) : List Char → List Char → List (List Char)
  | [], acc => [acc.reverse]
  | c :: rest, acc =>
    if c = sep then acc.reverse :: goSplitAux sep rest []
    else goSplitAux sep rest (c :: acc)

/-- Embedding of Go's `strings.Split s sep` for a one-character separator
`sep`: splits `s` at every occurrence of `sep`; the result always has at
least one element. -/
def goSplit (s : String) (sep : Char) : List String :=
  (goSplitAux sep s.data []).map (fun cs => String.mk cs)

/-- Join a list of strings with a single-space separator (Go's
`strings.Join parts " "`). -/
def spaceJoin : List String → String
  | [] => ""
  | [x] => x
  | x :: xs => x ++ " " ++ spaceJoin xs

/-- Join a list of strings with a comma-space separator (Go's
`strings.Join parts ", "`). -/
def commaJoin : List String → String
  | [] => ""
  | [x] => x
  | x :: xs => x ++ ", " ++ commaJoin xs

/-- Modelled from the spec: `utils.NonEmptyStringsConcatSpaceSeparated`
(an external utils package, not under src) joins its already-stringified
arguments with single spaces, omitting empty ones entirely. -/
def NonEmptyStringsConcatSpaceSeparated (parts : List String) : String :=
  spaceJoin (parts.filter (fun p => p != ""))

/-- Rendered text of an optional expression: a nil expression renders as the
empty string. -/
def optExprText : Option SqlExpr → String
  | some e => e.toString
  | none => ""

/-- AlterStmt of the source: target kind, name, alter sub-expression. -/
structure AlterStmt where
  Target : SqlTarget
  Name : SqlIdent
  Alter : SqlExpr
  deriving DecidableEq

/-- CreateStmt of the source: target kind, name, optional create
sub-expression, if-not-exists flag (`IfNotX`). -/
structure CreateStmt where
  Target : SqlTarget
  Name : SqlIdent
  Create : Option SqlExpr
  IfNotX : Bool
  deriving DecidableEq

/-- DropStmt of the source: target kind and name. -/
structure DropStmt where
  Target : SqlTarget
  Name : SqlIdent
  deriving DecidableEq

/-- OnConflict fragment of the source: cause expression and set expressions. -/
structure OnConflict where
  Cause : SqlExpr
  Set : List SqlExpr
  deriving DecidableEq

/-- InsertStmt of the source. The Go field `Insert` is a
`map[string]SqlExpr`; it is modelled by its entry list, and every map
iteration is an arbitrary permutation of this list. The optional
`OnConflict` pointer is modelled as an `Option`. -/
structure InsertStmt where
  Table : TableDesc
  Insert : List (String × SqlExpr)
  OnConflict : Option OnConflict
  deriving DecidableEq

/-- UpdateStmt of the source: table, set expressions, optional where. -/
structure UpdateStmt where
  Table : TableDesc
  Set : List SqlExpr
  Where : Option SqlExpr
  deriving DecidableEq

/-- SelectStmt of the source: columns, from table, optional where. -/
structure SelectStmt where
  Columns : List SqlExpr
  From : TableDesc
  Where : Option SqlExpr
  deriving DecidableEq

/-- WithStmt of the source: name, the with-bound select and the outer select. -/
structure WithStmt where
  Name : String
  With : SelectStmt
  Select : SelectStmt
  deriving DecidableEq

/-- The shared name-resolution logic of section 4.1, inlined identically in
`AlterStmt.solved` and `CreateStmt.solved` in the source: a selector yields
(container, name); otherwise the name string is split on the dot separator
and, when the split has more than one part, parts 0 and 1 are taken;
otherwise a schema target yields (name, empty) and any other target panics
with a message carrying the literal name. -/
def resolve (target : SqlTarget) (name : SqlIdent) : PanicOr (String × String) :=
  match name with
  | .selector container nm => PanicOr.ok (container, nm)
  | .name s =>
    match goSplit s '.' with
    | n0 :: n1 :: _ => PanicOr.ok (n0, n1)
    | _ =>
      if target = SqlTarget.schema then PanicOr.ok (s, "")
      else PanicOr.panic ("cannot resolve schema for `" ++ s ++ "`")

/-- The field component contributed by the alter sub-expression in
`AlterStmt.solved`: the add-column expression's target column name, empty
otherwise. -/
def alterField : SqlExpr → String
  | .addExpr nm _ _ => nm.GetName
  | _ => ""

/-- `AlterStmt.String()`: the Go format string `alter %s %s %s`. -/
def AlterStmt.render (c : AlterStmt) : String :=
  "alter " ++ c.Target.toString ++ " " ++ c.Name.GetName ++ " " ++ c.Alter.toString

/-- `AlterStmt.dependedOn()`: delegates to the alter sub-expression. -/
def AlterStmt.dependedOn (c : AlterStmt) : Dependencies :=
  c.Alter.dependedOn

/-- `AlterStmt.solved()`: resolve (schema, object) per section 4.1 (panicking
on an unresolvable name), then emit the single key (schema, object, field)
where field is the add-column target name or empty. -/
def AlterStmt.solved (c : AlterStmt) : PanicOr Dependencies :=
  match resolve c.Target c.Name with
  | .panic msg => .panic msg
  | .ok (s, o) => .ok (dependedOn3 s o (alterField c.Alter))

/-- `CreateStmt.String()`: for a constraint target only `create` and the
create text are joined; otherwise `create`, the target noun, the optional
`if not exists` token, the name and the create text are joined, empties
omitted. -/
def CreateStmt.render (c : CreateStmt) : String :=
  let ifNotExists := if c.IfNotX then "if not exists" else ""
  if c.Target = SqlTarget.constraint then
    NonEmptyStringsConcatSpaceSeparated ["create", optExprText c.Create]
  else
    NonEmptyStringsConcatSpaceSeparated
      ["create", c.Target.toString, ifNotExists, c.Name.GetName, optExprText c.Create]

/-- `CreateStmt.dependedOn()`: the create sub-expression's edges when
present, empty otherwise. -/
def CreateStmt.dependedOn (c : CreateStmt) : Dependencies :=
  match c.Create with
  | some e => e.dependedOn
  | none => []

/-- `CreateStmt.solved()`: resolve (schema, object) per section 4.1
(panicking on an unresolvable name), emit the base key, and when the create
sub-expression is a table-body describer additionally emit one key per
declared column in declaration order. -/
def CreateStmt.solved (c : CreateStmt) : PanicOr Dependencies :=
  match resolve c.Target c.Name with
  | .panic msg => .panic msg
  | .ok (s, o) =>
    let result := dependedOn2 s o
    match c.Create with
    | some (.tableBodyDescriber fields _ _) =>
      .ok (fields.foldl
        (fun acc f => concatDependencies acc (dependedOn3 s o (f.Name.GetName))) result)
    | _ => .ok result

/-- `DropStmt.String()`: `drop`, target noun and name joined, empties
omitted. -/
def DropStmt.render (c : DropStmt) : String :=
  NonEmptyStringsConcatSpaceSeparated ["drop", c.Target.toString, c.Name.GetName]

/-- `DropStmt.dependedOn()`: always empty. -/
def DropStmt.dependedOn (_ : DropStmt) : Dependencies := []

/-- `DropStmt.solved()`: always empty. -/
def DropStmt.solved (_ : DropStmt) : Dependencies := []

/-- The where-clause text used by Update and Select rendering: the literal
`1 = 1` when no where expression is present. -/
def whereClauseText : Option SqlExpr → String
  | some e => e.toString
  | none => "1 = 1"

/-- `UpdateStmt.String()`: the Go format string
`update %s %s set %s where %s` over table name, alias, comma-joined set
clauses and the where clause. -/
def UpdateStmt.render (c : UpdateStmt) : String :=
  "update " ++ c.Table.Table.GetName ++ " " ++ c.Table.Alias
    ++ " set " ++ commaJoin (c.Set.map SqlExpr.toString)
    ++ " where " ++ whereClauseText c.Where

/-- `UpdateStmt.dependedOn()`: concatenation, in order, of each set
expression's edges. -/
def UpdateStmt.dependedOn (c : UpdateStmt) : Dependencies :=
  c.Set.foldl (fun r s => concatDependencies r s.dependedOn) []

/-- `UpdateStmt.solved()`: always empty. -/
def UpdateStmt.solved (_ : UpdateStmt) : Dependencies := []

/-- `OnConflict.String()` on a non-nil receiver: the Go format string
`on conflict %s do update set %s`. -/
def OnConflict.render (c : OnConflict) : String :=
  "on conflict " ++ c.Cause.toString ++ " do update set "
    ++ commaJoin (c.Set.map SqlExpr.toString)

/-- `OnConflict.String()` including the nil receiver, which renders as the
empty string. -/
def optOnConflictText : Option OnConflict → String
  | some c => c.render
  | none => ""

/-- The two lists built by the rendering loop of `InsertStmt.String()` from
one map enumeration: field names and rendered value expressions, appended
pairwise in a single pass. -/
def insertLists (enum : List (String × SqlExpr)) : List String × List String :=
  enum.foldl (fun acc p => (acc.1 ++ [p.1], acc.2 ++ [SqlExpr.toString p.2])) ([], [])

/-- `InsertStmt.String()` under a given map iteration order `enum` (Go map
iteration order is unspecified, so `enum` ranges over the permutations of
`c.Insert`): the Go format string `insert into %s (%s) values (%s) %s`. -/
def InsertStmt.renderWith (c : InsertStmt) (enum : List (String × SqlExpr)) : String :=
  "insert into " ++ c.Table.Table.GetName
    ++ " (" ++ commaJoin (insertLists enum).1
    ++ ") values (" ++ commaJoin (insertLists enum).2
    ++ ") " ++ optOnConflictText c.OnConflict

/-- `InsertStmt.dependedOn()`: the single edge whose schema component is left
blank (the source marks it with a TODO comment) and whose object is the
table identifier's own name. -/
def InsertStmt.dependedOn (c : InsertStmt) : Dependencies :=
  [⟨"", c.Table.Table.GetName, ""⟩]

/-- `InsertStmt.solved()`: always empty. -/
def InsertStmt.solved (_ : InsertStmt) : Dependencies := []

/-- `SelectStmt.String()`: the Go format string
`select %s from %s %s where %s`. -/
def SelectStmt.render (c : SelectStmt) : String :=
  "select " ++ commaJoin (c.Columns.map SqlExpr.toString)
    ++ " from " ++ c.From.Table.GetName ++ " " ++ c.From.Alias
    ++ " where " ++ whereClauseText c.Where

/-- `SelectStmt.dependedOn()`: always empty. -/
def SelectStmt.dependedOn (_ : SelectStmt) : Dependencies := []

/-- `SelectStmt.solved()`: always empty. -/
def SelectStmt.solved (_ : SelectStmt) : Dependencies := []

/-- `WithStmt.String()`: the Go format string `with %s as (%s) %s`. -/
def WithStmt.render (c : WithStmt) : String :=
  "with " ++ c.Name ++ " as (" ++ c.With.render ++ ") " ++ c.Select.render

/-- `WithStmt.dependedOn()`: the outer select's edges followed by the
with-bound select's edges. -/
def WithStmt.dependedOn (c : WithStmt) : Dependencies :=
  c.Select.dependedOn ++ c.With.dependedOn

/-- `WithStmt.solved()`: the outer select's keys followed by the with-bound
select's keys. -/
def WithStmt.solved (c : WithStmt) : Dependencies :=
  c.Select.solved ++ c.With.solved

/-- The column keys emitted by `CreateStmt.solved` for its create
sub-expression: one key per declared column of a table-body describer, in
declaration order; empty for any other (or absent) sub-expression. -/
def createColumnKeys (s o : String) : Option SqlExpr → Dependencies
  | some (SqlExpr.tableBodyDescriber fields _ _) =>
      fields.map (fun f => NamedObject.mk s o (f.Name.GetName))
  | _ => []

/-- Scan of a character list for two adjacent space characters. -/
def hasDoubleSpaceAux : List Char → Bool
  | c1 :: c2 :: rest => (c1 == ' ' && c2 == ' ') || hasDoubleSpaceAux (c2 :: rest)
  | _ => false

/-- A string is space-clean when padding it with one space on each side
leaves no two adjacent spaces: no double space inside, no leading space, no
trailing space. The empty string is not space-clean under this padding. -/
abbrev SpaceCleanPadded (s : String) : Prop :=
  hasDoubleSpaceAux ((' ' :: s.data) ++ [' ']) = false

/-- A concrete InsertStmt whose Go map holds the two entries a and b. -/
def insertEx : InsertStmt :=
  ⟨⟨SqlIdent.name "users", ""⟩,
   [("a", SqlExpr.other "1" []), ("b", SqlExpr.other "2" [])], none⟩

/-- A concrete UpdateStmt with an empty alias. -/
def updateEx : UpdateStmt :=
  ⟨⟨SqlIdent.name "users", ""⟩, [SqlExpr.other "x = 1" []], none⟩

/-- A concrete CreateStmt used to witness the amended C5. -/
def createEx : CreateStmt :=
  ⟨SqlTarget.table, SqlIdent.name "public.users", some (SqlExpr.other "body" []), true⟩

/-- A concrete DropStmt used to witness the amended C5. -/
def dropEx : DropStmt := ⟨SqlTarget.table, SqlIdent.name "users"⟩

theorem foldl_concat_dependedOn3 (s o : String) (fs : List FieldDesc) (init : Dependencies) :
    fs.foldl (fun acc f => concatDependencies acc (dependedOn3 s o (f.Name.GetName))) init
      = init ++ fs.map (fun f => NamedObject.mk s o (f.Name.GetName)) := by
  induction fs generalizing init with
  | nil => simp
  | cons f fs ih =>
    rw [List.foldl_cons, ih]
    simp [concatDependencies, dependedOn3, List.append_assoc]

theorem resolve_split (t : SqlTarget) (n s o : String) (rest : List String)
    (h : goSplit n '.' = s :: o :: rest) :
    resolve t (SqlIdent.name n) = PanicOr.ok (s, o) := by
  simp [resolve, h]

theorem alter_solved_ok (c : AlterStmt) (s o : String)
    (hres : resolve c.Target c.Name = PanicOr.ok (s, o)) :
    c.solved = PanicOr.ok [NamedObject.mk s o (alterField c.Alter)] := by
  unfold AlterStmt.solved
  rw [hres]
  rfl

theorem create_solved_ok (c : CreateStmt) (s o : String)
    (hres : resolve c.Target c.Name = PanicOr.ok (s, o)) :
    c.solved = PanicOr.ok (NamedObject.mk s o "" :: createColumnKeys s o c.Create) := by
  unfold CreateStmt.solved
  rw [hres]
  rcases hC : c.Create with _ | (⟨nm, txt, deps⟩ | ⟨fields, txt, deps⟩ | ⟨txt, deps⟩)
  · rfl
  · rfl
  · show PanicOr.ok
        (List.foldl (fun acc f => concatDependencies acc (dependedOn3 s o (f.Name.GetName)))
          (dependedOn2 s o) fields) = _
    rw [foldl_concat_dependedOn3]
    simp [createColumnKeys, dependedOn2]
  · rfl

/-- C1: for an unqualified, dot-free name with a non-schema target, solved()
of both Create and Alter terminates in a Go panic — a process-terminating
fault whose message carries the literal name — rather than returning a typed
recoverable UnresolvableSchemaReference error. -/
theorem C1_panic_at_unqualified_name :
    CreateStmt.solved ⟨SqlTarget.table, SqlIdent.name "users", none, false⟩
      = PanicOr.panic "cannot resolve schema for `users`" ∧
    AlterStmt.solved ⟨SqlTarget.table, SqlIdent.name "users", SqlExpr.other "" []⟩
      = PanicOr.panic "cannot resolve schema for `users`" := by
  decide

/-- C2: InsertStmt.dependedOn() returns exactly one edge, but its schema
component is left blank even when the insert-target table identifier is a
qualified selector carrying a schema; the object is the identifier's own
name and no resolution is performed. -/
theorem C2_blank_schema :
    InsertStmt.dependedOn ⟨⟨SqlIdent.selector "public" "users", ""⟩, [], none⟩
      = [NamedObject.mk "" "users" ""] := by
  decide

/-- C3 counterexample: an AlterStmt with the two-part name "s.o" whose alter
sub-expression is an add-column expression solves to the single key
(s, o, column-name); the key (s, o, empty) claimed to always be included is
absent. -/
theorem C3_counterexample :
    AlterStmt.solved
        ⟨SqlTarget.table, SqlIdent.name "s.o", SqlExpr.addExpr (SqlIdent.name "c") "" []⟩
      = PanicOr.ok [NamedObject.mk "s" "o" "c"] ∧
    NamedObject.mk "s" "o" "" ∉ [NamedObject.mk "s" "o" "c"] := by
  decide

/-- C3 amended: for a Create whose name splits into the two parts (s, o),
solved() includes (s, o, empty) as its first element; for an Alter with such
a name, solved() is the single key (s, o, f) where f is the add-column target
column name when the alter sub-expression is an add-column expression and
empty otherwise. -/
theorem C3_amended (c : CreateStmt) (a : AlterStmt) (nc na s1 o1 s2 o2 : String)
    (hcn : c.Name = SqlIdent.name nc) (hcs : goSplit nc '.' = [s1, o1])
    (han : a.Name = SqlIdent.name na) (has : goSplit na '.' = [s2, o2]) :
    (∃ rest, c.solved = PanicOr.ok (NamedObject.mk s1 o1 "" :: rest)) ∧
    a.solved = PanicOr.ok [NamedObject.mk s2 o2 (alterField a.Alter)] := by
  refine ⟨⟨createColumnKeys s1 o1 c.Create, ?_⟩, ?_⟩
  · exact create_solved_ok c s1 o1
      (by rw [hcn]; exact resolve_split c.Target nc s1 o1 [] hcs)
  · exact alter_solved_ok a s2 o2
      (by rw [han]; exact resolve_split a.Target na s2 o2 [] has)

theorem C3_amended_witness :
    (∃ rest, CreateStmt.solved ⟨SqlTarget.table, SqlIdent.name "s.o", none, false⟩
        = PanicOr.ok (NamedObject.mk "s" "o" "" :: rest)) ∧
    AlterStmt.solved ⟨SqlTarget.table, SqlIdent.name "s.o", SqlExpr.other "x" []⟩
      = PanicOr.ok [NamedObject.mk "s" "o" ""] :=
  C3_amended ⟨SqlTarget.table, SqlIdent.name "s.o", none, false⟩
    ⟨SqlTarget.table, SqlIdent.name "s.o", SqlExpr.other "x" []⟩
    "s.o" "s.o" "s" "o" "s" "o" rfl (by decide) rfl (by decide)

/-- C4: a Create whose name resolves to (s, o) and whose create
sub-expression is a table-body describer solves to exactly the base key
(s, o, empty) followed by one key per declared column, in declaration
order. -/
theorem C4_table_body_solved (c : CreateStmt) (s o : String)
    (fields : List FieldDesc) (txt : String) (deps : Dependencies)
    (hres : resolve c.Target c.Name = PanicOr.ok (s, o))
    (hbody : c.Create = some (SqlExpr.tableBodyDescriber fields txt deps)) :
    c.solved = PanicOr.ok (NamedObject.mk s o "" ::
      fields.map (fun f => NamedObject.mk s o (f.Name.GetName))) := by
  rw [create_solved_ok c s o hres, hbody]
  rfl

theorem C4_witness :
    CreateStmt.solved ⟨SqlTarget.table, SqlIdent.name "public.users",
        some (SqlExpr.tableBodyDescriber [⟨SqlIdent.name "a"⟩, ⟨SqlIdent.name "b"⟩] "" []), true⟩
      = PanicOr.ok [NamedObject.mk "public" "users" "", NamedObject.mk "public" "users" "a",
          NamedObject.mk "public" "users" "b"] :=
  C4_table_body_solved
    ⟨SqlTarget.table, SqlIdent.name "public.users",
      some (SqlExpr.tableBodyDescriber [⟨SqlIdent.name "a"⟩, ⟨SqlIdent.name "b"⟩] "" []), true⟩
    "public" "users" [⟨SqlIdent.name "a"⟩, ⟨SqlIdent.name "b"⟩] "" [] (by decide) rfl

/-- C6 counterexample: for the three-part name "a.b.c" the code resolves the
object to "b" (the segment between the first and second separator), not to
the entire remainder "b.c" after the first separator. -/
theorem C6_counterexample :
    CreateStmt.solved ⟨SqlTarget.table, SqlIdent.name "a.b.c", none, false⟩
      = PanicOr.ok [NamedObject.mk "a" "b" ""] ∧
    CreateStmt.solved ⟨SqlTarget.table, SqlIdent.name "a.b.c", none, false⟩
      ≠ PanicOr.ok [NamedObject.mk "a" "b.c" ""] := by
  decide

/-- C6 amended: for every non-selector name containing a separator, Alter and
Create solved() split the name on the separator and take schema = the first
segment and object = the second segment, discarding any further segments. -/
theorem C6_amended (t : SqlTarget) (a : SqlExpr) (cr : Option SqlExpr) (inx : Bool)
    (n s o : String) (rest : List String)
    (h : goSplit n '.' = s :: o :: rest) :
    AlterStmt.solved ⟨t, SqlIdent.name n, a⟩
      = PanicOr.ok [NamedObject.mk s o (alterField a)] ∧
    CreateStmt.solved ⟨t, SqlIdent.name n, cr, inx⟩
      = PanicOr.ok (NamedObject.mk s o "" :: createColumnKeys s o cr) :=
  ⟨alter_solved_ok ⟨t, SqlIdent.name n, a⟩ s o (resolve_split t n s o rest h),
   create_solved_ok ⟨t, SqlIdent.name n, cr, inx⟩ s o (resolve_split t n s o rest h)⟩

theorem C6_amended_witness :
    goSplit "a.b.c" '.' = ["a", "b", "c"] ∧
    (AlterStmt.solved ⟨SqlTarget.table, SqlIdent.name "a.b.c", SqlExpr.other "" []⟩
        = PanicOr.ok [NamedObject.mk "a" "b" ""] ∧
     CreateStmt.solved ⟨SqlTarget.table, SqlIdent.name "a.b.c", none, true⟩
        = PanicOr.ok [NamedObject.mk "a" "b" ""]) :=
  ⟨by decide,
   C6_amended SqlTarget.table (SqlExpr.other "" []) none true "a.b.c" "a" "b" ["c"] (by decide)⟩

/-- C7: for every WithStmt, dependedOn() is the outer select's edges followed
by the with-bound select's edges, and the same composition law holds for
solved(). -/
theorem C7_with_composition (w : WithStmt) :
    w.dependedOn = w.Select.dependedOn ++ w.With.dependedOn ∧
    w.solved = w.Select.solved ++ w.With.solved :=
  ⟨rfl, rfl⟩

/-- C8: two iteration orders of the same two-entry insert map — both valid
permutations of the map's entries, as Go map iteration order is
unspecified — render the same already-built statement to different text, so
rendering is not deterministic. -/
theorem C8_map_order_changes_render :
    ([("a", SqlExpr.other "1" []), ("b", SqlExpr.other "2" [])].Perm insertEx.Insert) ∧
    ([("b", SqlExpr.other "2" []), ("a", SqlExpr.other "1" [])].Perm insertEx.Insert) ∧
    InsertStmt.renderWith insertEx [("a", SqlExpr.other "1" []), ("b", SqlExpr.other "2" [])]
      = "insert into users (a, b) values (1, 2) " ∧
    InsertStmt.renderWith insertEx [("b", SqlExpr.other "2" []), ("a", SqlExpr.other "1" [])]
      = "insert into users (b, a) values (2, 1) " ∧
    InsertStmt.renderWith insertEx [("a", SqlExpr.other "1" []), ("b", SqlExpr.other "2" [])]
      ≠ InsertStmt.renderWith insertEx [("b", SqlExpr.other "2" []), ("a", SqlExpr.other "1" [])] := by
  refine ⟨List.Perm.refl _, List.Perm.swap _ _ _, by decide, by decide, by decide⟩

theorem insertLists_foldl (enum : List (String × SqlExpr)) (fs vs : List String) :
    enum.foldl (fun acc p => (acc.1 ++ [p.1], acc.2 ++ [SqlExpr.toString p.2])) (fs, vs)
      = (fs ++ enum.map Prod.fst, vs ++ enum.map (fun p => SqlExpr.toString p.2)) := by
  induction enum generalizing fs vs with
  | nil => simp
  | cons p rest ih => simp [ih]

theorem insertLists_eq (enum : List (String × SqlExpr)) :
    insertLists enum
      = (enum.map Prod.fst, enum.map (fun p => SqlExpr.toString p.2)) := by
  simpa [insertLists] using insertLists_foldl enum [] []

/-- C9: for every InsertStmt and every enumeration order of its insert map,
the field list and value list built by the rendering loop have the same
length and are positionally aligned — the pair list they form is exactly the
enumeration with each expression replaced by its rendered text. -/
theorem C9_fields_values_aligned (c : InsertStmt) (enum : List (String × SqlExpr))
    (_hperm : enum.Perm c.Insert) :
    (insertLists enum).1.length = (insertLists enum).2.length ∧
    ((insertLists enum).1).zip ((insertLists enum).2)
      = enum.map (fun p => (p.1, SqlExpr.toString p.2)) := by
  rw [insertLists_eq]
  constructor
  · simp
  · simp [List.zip_map']

theorem C9_witness :
    ([("a", SqlExpr.other "1" []), ("b", SqlExpr.other "2" [])].Perm insertEx.Insert) ∧
    ((insertLists [("a", SqlExpr.other "1" []), ("b", SqlExpr.other "2" [])]).1.length
        = (insertLists [("a", SqlExpr.other "1" []), ("b", SqlExpr.other "2" [])]).2.length ∧
     ((insertLists [("a", SqlExpr.other "1" []), ("b", SqlExpr.other "2" [])]).1).zip
         ((insertLists [("a", SqlExpr.other "1" []), ("b", SqlExpr.other "2" [])]).2)
       = [("a", SqlExpr.other "1" []), ("b", SqlExpr.other "2" [])].map
           (fun p => (p.1, SqlExpr.toString p.2))) :=
  ⟨List.Perm.refl _,
   C9_fields_values_aligned insertEx
     [("a", SqlExpr.other "1" []), ("b", SqlExpr.other "2" [])] (List.Perm.refl _)⟩

/-- C10: for a constraint-target Create, the rendered text is only `create`
followed by the create text — the name and target are omitted — yet solved()
still resolves the name, so an unqualified dot-free name makes solved() fail
(with a panic) even though rendering never uses the name. -/
theorem C10_constraint_render_vs_solved (c : CreateStmt) (nm : String)
    (ht : c.Target = SqlTarget.constraint)
    (hn : c.Name = SqlIdent.name nm)
    (hd : goSplit nm '.' = [nm]) :
    c.render = NonEmptyStringsConcatSpaceSeparated ["create", optExprText c.Create] ∧
    c.solved = PanicOr.panic ("cannot resolve schema for `" ++ nm ++ "`") := by
  constructor
  · unfold CreateStmt.render
    rw [ht]
    simp
  · have hres : resolve c.Target c.Name
        = PanicOr.panic ("cannot resolve schema for `" ++ nm ++ "`") := by
      rw [hn]
      simp only [resolve]
      rw [hd]
      simp [ht]
    unfold CreateStmt.solved
    rw [hres]

theorem data_append_eq (a b : String) : (a ++ b).data = a.data ++ b.data := rfl

theorem hasDoubleSpaceAux_append_cons (xs : List Char) (c : Char) (ys : List Char) :
    hasDoubleSpaceAux (xs ++ c :: ys)
      = (hasDoubleSpaceAux (xs ++ [c]) || hasDoubleSpaceAux (c :: ys)) := by
  induction xs with
  | nil => simp [hasDoubleSpaceAux]
  | cons a xs ih =>
    cases xs with
    | nil => simp [hasDoubleSpaceAux, Bool.or_assoc]
    | cons b rest =>
      simp only [List.cons_append, List.append_eq, hasDoubleSpaceAux] at ih ⊢
      rw [ih, Bool.or_assoc]

theorem spaceJoin_clean (p : String) (parts : List String)
    (hp : SpaceCleanPadded p) (h : ∀ q ∈ parts, SpaceCleanPadded q) :
    SpaceCleanPadded (spaceJoin (p :: parts)) := by
  induction parts generalizing p with
  | nil => exact hp
  | cons q rest ih =>
    have hq : SpaceCleanPadded (spaceJoin (q :: rest)) :=
      ih q (h q (by simp)) (fun r hr => h r (by simp [hr]))
    show hasDoubleSpaceAux
        ((' ' :: (p ++ " " ++ spaceJoin (q :: rest)).data) ++ [' ']) = false
    have hsp : (" " : String).data = [' '] := rfl
    have hshape : (' ' :: (p ++ " " ++ spaceJoin (q :: rest)).data) ++ [' ']
        = (' ' :: p.data) ++ ' ' :: ((spaceJoin (q :: rest)).data ++ [' ']) := by
      simp [data_append_eq, hsp, List.append_assoc]
    rw [hshape, hasDoubleSpaceAux_append_cons]
    have hp' : hasDoubleSpaceAux ((' ' :: p.data) ++ [' ']) = false := hp
    have hq' : hasDoubleSpaceAux
        (' ' :: ((spaceJoin (q :: rest)).data ++ [' '])) = false := hq
    rw [hp', hq']
    rfl

theorem target_clean (t : SqlTarget) : SpaceCleanPadded t.toString := by
  cases t <;> decide

theorem ness_cons_clean (head : String) (rest : List String)
    (hh : SpaceCleanPadded head) (hhne : head ≠ "")
    (h : ∀ q ∈ rest, q ≠ "" → SpaceCleanPadded q) :
    SpaceCleanPadded (NonEmptyStringsConcatSpaceSeparated (head :: rest)) := by
  unfold NonEmptyStringsConcatSpaceSeparated
  rw [List.filter_cons_of_pos (by simpa using hhne)]
  exact spaceJoin_clean head _ hh (fun q hq => by
    rcases List.mem_filter.mp hq with ⟨hmem, hne⟩
    exact h q hmem (by simpa using hne))

/-- C5 counterexample: an UpdateStmt with an empty alias renders with a
double space between the table name and `set`, violating the claimed
no-double-space rule for every statement variant and every combination of
absent optional parts. -/
theorem C5_counterexample :
    UpdateStmt.render updateEx = "update users  set x = 1 where 1 = 1" ∧
    hasDoubleSpaceAux (UpdateStmt.render updateEx).data = true := by
  decide

/-- C5 amended: the join-with-single-spaces-and-omit-empties rule holds for
the statements rendered through the non-empty-join utility — Create (with a
non-constraint target) and Drop: when the name and create text are
themselves space-clean or empty, the rendered text has no double spaces, no
leading space and no trailing space, and the specific Create example renders
exactly as claimed. The other variants (Alter, Insert, Update, Select, With)
interpolate optional parts into fixed format strings and can produce double
or trailing spaces when those parts are empty. -/
theorem C5_amended (c : CreateStmt) (d : DropStmt)
    (hct : c.Target ≠ SqlTarget.constraint)
    (hcn : c.Name.GetName ≠ "" → SpaceCleanPadded (c.Name.GetName))
    (hcc : optExprText c.Create ≠ "" → SpaceCleanPadded (optExprText c.Create))
    (hdn : d.Name.GetName ≠ "" → SpaceCleanPadded (d.Name.GetName)) :
    SpaceCleanPadded c.render ∧ SpaceCleanPadded d.render ∧
    CreateStmt.render ⟨SqlTarget.table, SqlIdent.name "public.users",
        some (SqlExpr.other "" []), true⟩
      = "create table if not exists public.users" := by
  refine ⟨?_, ?_, by decide⟩
  · simp only [CreateStmt.render]
    rw [if_neg hct]
    refine ness_cons_clean "create" _ (by decide) (by decide) ?_
    intro q hq hqne
    simp only [List.mem_cons, List.not_mem_nil, or_false] at hq
    rcases hq with rfl | rfl | rfl | rfl
    · exact target_clean c.Target
    · cases hB : c.IfNotX
      · rw [hB] at hqne
        simp at hqne
      · decide
    · exact hcn hqne
    · exact hcc hqne
  · unfold DropStmt.render
    refine ness_cons_clean "drop" _ (by decide) (by decide) ?_
    intro q hq hqne
    simp only [List.mem_cons, List.not_mem_nil, or_false] at hq
    rcases hq with rfl | rfl
    · exact target_clean d.Target
    · exact hdn hqne

theorem C5_amended_witness :
    createEx.Target ≠ SqlTarget.constraint ∧
    (createEx.Name.GetName ≠ "" → SpaceCleanPadded (createEx.Name.GetName)) ∧
    (optExprText createEx.Create ≠ "" → SpaceCleanPadded (optExprText createEx.Create)) ∧
    (dropEx.Name.GetName ≠ "" → SpaceCleanPadded (dropEx.Name.GetName)) ∧
    (SpaceCleanPadded createEx.render ∧ SpaceCleanPadded dropEx.render ∧
     CreateStmt.render ⟨SqlTarget.table, SqlIdent.name "public.users",
        some (SqlExpr.other "" []), true⟩
       = "create table if not exists public.users") :=
  ⟨by decide, by decide, by decide, by decide,
   C5_amended createEx dropEx (by decide) (by decide) (by decide) (by decide)⟩

theorem C10_witness :
    (CreateStmt.Target ⟨SqlTarget.constraint, SqlIdent.name "users",
        some (SqlExpr.other "check (a > 0)" []), false⟩ = SqlTarget.constraint) ∧
    goSplit "users" '.' = ["users"] ∧
    (CreateStmt.render ⟨SqlTarget.constraint, SqlIdent.name "users",
        some (SqlExpr.other "check (a > 0)" []), false⟩
      = NonEmptyStringsConcatSpaceSeparated ["create", "check (a > 0)"] ∧
     CreateStmt.solved ⟨SqlTarget.constraint, SqlIdent.name "users",
        some (SqlExpr.other "check (a > 0)" []), false⟩
      = PanicOr.panic "cannot resolve schema for `users`") :=
  ⟨rfl, by decide,
   C10_constraint_render_vs_solved
     ⟨SqlTarget.constraint, SqlIdent.name "users", some (SqlExpr.other "check (a > 0)" []), false⟩
     "users" rfl rfl (by decide)⟩
